import Mathlib

/-!
Verification of the RN2483 LoRaWAN driver (src/rn2483/rn2483.py) against its
natural-language specification.

The driver is a single-threaded command/response engine over a serial line.
We embed it shallowly:

* the serial read stream is a finite list of `Option String`: one entry per
  `uart.readline()` call, where `none` models the no-data timeout sentinel
  (MicroPython returns `None`) and `some s` models returned bytes decoded as
  a string (`some ""` models a zero-length byte string `b""`);
* every externally visible action (write, sleep, watchdog feed, read) is
  recorded in an event trace;
* exceptions become an `Except` result; Python's early `raise` is modelled by
  returning the error together with the trace and state accumulated so far;
* the mutable instance attribute `hw_eui` and the remaining read stream form
  the driver state.
-/

/-- Python whitespace characters stripped by `str.strip()`. -/
def isPySpace (c : Char) : Bool :=
  c = ' ' || c = Char.ofNat 9 || c = Char.ofNat 10 || c = Char.ofNat 13 ||
  c = Char.ofNat 11 || c = Char.ofNat 12

/-- Model of Python `str.strip()`: removes leading and trailing whitespace. -/
def pyStrip (s : String) : String :=
  String.mk (((s.data.dropWhile isPySpace).reverse.dropWhile isPySpace).reverse)

/-- Modelled from the spec's words (for comparison with the code): strip only
the trailing whitespace/line-ending, as step 7 of `execute` describes it. -/
def pyRStrip (s : String) : String :=
  String.mk ((s.data.reverse.dropWhile isPySpace).reverse)

/-- Lowercase hexadecimal digit for a value below 16, as `binascii.hexlify`
produces. -/
def hexDigit (n : Nat) : Char :=
  if n < 10 then Char.ofNat (48 + n) else Char.ofNat (87 + n)

/-- Two lowercase hex digits of one byte. -/
def byteHex (b : Nat) : List Char :=
  [hexDigit (b / 16), hexDigit (b % 16)]

/-- Model of `binascii.hexlify(..).decode("utf-8")` on a byte list. -/
def hexlify (bs : List Nat) : String :=
  String.mk ((bs.map byteHex).flatten)

/-- UTF-8 encoding of a single character (Python `bytes(data, "utf-8")`). -/
def utf8EncodeChar (c : Char) : List Nat :=
  let n := c.toNat
  if n < 128 then [n]
  else if n < 2048 then [192 + n / 64, 128 + n % 64]
  else if n < 65536 then [224 + n / 4096, 128 + (n / 64) % 64, 128 + n % 64]
  else [240 + n / 262144, 128 + (n / 4096) % 64, 128 + (n / 64) % 64, 128 + n % 64]

/-- UTF-8 bytes of a string. -/
def utf8Bytes (s : String) : List Nat :=
  (s.data.map utf8EncodeChar).flatten

/-- Externally visible actions of the driver, in program order. -/
inductive Event where
  | write (data : String)
  | sleepMs (ms : Nat)
  | feed
  | readLine
  | readRaw
  deriving DecidableEq, Repr

/-- The driver's typed error conditions (the three exception classes).
`RN2483InvalidResponse` is raised with an f-string holding the actual and the
expected content; we carry that pair directly (single-line and multi-line
variants). -/
inductive Err where
  | invalidInput (message : String)
  | noResponse
  | invalidResponse (actual expected : String)
  | invalidResponseList (actual expected : List String)
  deriving DecidableEq, Repr

/-- Mutable state of an `RN2483` instance: the pending serial input and the
cached hardware EUI (`none` while the `hw_eui` attribute is still unset). -/
structure DriverState where
  reads : List (Option String)
  hw_eui : Option String
  deriving DecidableEq, Repr

/-- Constructor configuration that the modelled operations read: the OTAA
credentials supplied at construction. -/
structure Config where
  app_eui : String
  app_key : String
  deriving DecidableEq, Repr

/-- Result of one driver operation: outcome, event trace, updated state. -/
abbrev Res (α : Type) : Type := Except Err α × List Event × DriverState

/-- Sequencing of two operations: Python statement sequencing, where a raised
exception aborts the rest (the trace and state so far are kept). -/
def andThen {α β : Type} (r : Res α) (f : α → DriverState → Res β) : Res β :=
  match r with
  | (Except.ok a, tr, st) =>
    let r2 := f a st
    (r2.1, tr ++ r2.2.1, r2.2.2)
  | (Except.error e, tr, st) => (Except.error e, tr, st)

/-- An operation that only emits events (plain `sleep_ms` / `wdt.feed` calls). -/
def emit (evs : List Event) (st : DriverState) : Res Unit :=
  (Except.ok (), evs, st)

/-- Discard the value of an operation (Python call whose result is unused). -/
def toUnit {α : Type} (r : Res α) : Res Unit :=
  (r.1.map fun _ => (), r.2.1, r.2.2)

/-- RN2483._bool_to_on_off. -/
def bool_to_on_off (b : Bool) : String :=
  if b then "on" else "off"

deriving instance DecidableEq for Except

/-- RN2483.execute: feed, write the command with terminator, settle 100,
feed, read one line; `if not response` raise NoResponse; decode and strip;
if validating and the text differs from `valid` raise InvalidResponse;
otherwise feed and return the text. -/
def execute (command : String) (validate : Bool) (valid : String)
    (st : DriverState) : Res String :=
  let pre := [Event.feed, Event.write (command ++ "\r\n"), Event.sleepMs 100,
    Event.feed, Event.readLine]
  match st.reads with
  | [] => (Except.error Err.noResponse, pre, { st with reads := [] })
  | none :: rest => (Except.error Err.noResponse, pre, { st with reads := rest })
  | some s :: rest =>
    if s = "" then (Except.error Err.noResponse, pre, { st with reads := rest })
    else
      let decoded := pyStrip s
      if validate = true ∧ decoded ≠ valid then
        (Except.error (Err.invalidResponse decoded valid), pre,
          { st with reads := rest })
      else
        (Except.ok decoded, pre ++ [Event.feed], { st with reads := rest })

/-- The `while response is not None` read loop of RN2483.execute_multiple,
entered after a truthy first read. Per iteration: feed, sleep 5000, read,
feed; a truthy read is decoded and appended; a `None` read (also when the
stream is exhausted) ends the loop; a zero-length read is skipped but the
loop continues. Returns (appended lines, events, remaining stream). -/
def multiLoop : List (Option String) → List String × List Event × List (Option String)
  | [] => ([], [Event.feed, Event.sleepMs 5000, Event.readLine, Event.feed], [])
  | none :: rest => ([], [Event.feed, Event.sleepMs 5000, Event.readLine, Event.feed], rest)
  | some s :: rest =>
    let r := multiLoop rest
    ((if s = "" then [] else [pyStrip s]) ++ r.1,
      [Event.feed, Event.sleepMs 5000, Event.readLine, Event.feed] ++ r.2.1,
      r.2.2)

/-- RN2483.execute_multiple: feed, write, settle 5000, feed, first read;
`if not response` raise NoResponse; decode and append; run the read loop;
if validating and the collected list differs from `valid` raise
InvalidResponse; otherwise return the list. -/
def execute_multiple (command : String) (validate : Bool) (valid : List String)
    (st : DriverState) : Res (List String) :=
  let pre := [Event.feed, Event.write (command ++ "\r\n"), Event.sleepMs 5000,
    Event.feed, Event.readLine]
  match st.reads with
  | [] => (Except.error Err.noResponse, pre, { st with reads := [] })
  | none :: rest => (Except.error Err.noResponse, pre, { st with reads := rest })
  | some s :: rest =>
    if s = "" then (Except.error Err.noResponse, pre, { st with reads := rest })
    else
      let r := multiLoop rest
      let results := pyStrip s :: r.1
      if validate = true ∧ results ≠ valid then
        (Except.error (Err.invalidResponseList results valid),
          pre ++ r.2.1, { st with reads := r.2.2 })
      else
        (Except.ok results, pre ++ r.2.1, { st with reads := r.2.2 })

/-- RN2483.sys_sleep: reject a length outside 100..4294967296 before any
write; otherwise write the sleep command (no response is read) and feed. -/
def sys_sleep (length : Int) (st : DriverState) : Res Unit :=
  if length < 100 ∨ length > 4294967296 then
    (Except.error (Err.invalidInput
      "The length to sleep must be between 100 and 4294967296!"), [], st)
  else
    (Except.ok (),
      [Event.write ("sys sleep " ++ toString length ++ "\r\n"), Event.feed], st)

/-- RN2483.sys_get_ver. -/
def sys_get_ver (st : DriverState) : Res String :=
  execute "sys get ver" false "ok" st

/-- RN2483.sys_get_hweui: `self.hw_eui = self.execute("sys get hweui",
validate=False)`; on success the decoded line overwrites the cached EUI. -/
def sys_get_hweui (st : DriverState) : Res String :=
  match execute "sys get hweui" false "ok" st with
  | (Except.ok s, tr, st1) => (Except.ok s, tr, { st1 with hw_eui := some s })
  | (Except.error e, tr, st1) => (Except.error e, tr, st1)

/-- RN2483.mac_reset. -/
def mac_reset (band : Int) (st : DriverState) : Res Unit :=
  toUnit (execute ("mac reset " ++ toString band) false "ok" st)

/-- RN2483.mac_set_deveui. -/
def mac_set_deveui (deveui : String) (st : DriverState) : Res Unit :=
  toUnit (execute ("mac set deveui " ++ deveui) true "ok" st)

/-- RN2483.mac_set_appeui: reject an AppEUI whose length is not 16 before
any write. -/
def mac_set_appeui (appeui : String) (st : DriverState) : Res Unit :=
  if appeui.length ≠ 16 then
    (Except.error (Err.invalidInput
      "The AppEUI needs to be exact 16 characters long!"), [], st)
  else
    toUnit (execute ("mac set appeui " ++ appeui) true "ok" st)

/-- RN2483.mac_set_appkey: reject an AppKey whose length is not 32 before
any write. -/
def mac_set_appkey (appkey : String) (st : DriverState) : Res Unit :=
  if appkey.length ≠ 32 then
    (Except.error (Err.invalidInput
      "The AppKey needs to be exact 32 characters long!"), [], st)
  else
    toUnit (execute ("mac set appkey " ++ appkey) true "ok" st)

/-- RN2483.mac_set_pwridx. -/
def mac_set_pwridx (pwrindex : Int) (st : DriverState) : Res Unit :=
  if pwrindex < 0 ∨ pwrindex > 5 then
    (Except.error (Err.invalidInput
      "The power index needs to be between 0 and 5 for 433 MHz and 1 to 5 for 868 MHz!"),
      [], st)
  else
    toUnit (execute ("mac set pwridx " ++ toString pwrindex) true "ok" st)

/-- RN2483.mac_set_dr. -/
def mac_set_dr (datarate : Int) (st : DriverState) : Res Unit :=
  if datarate < 0 ∨ datarate > 7 then
    (Except.error (Err.invalidInput
      "The data rate need to be between 0 and 7!"), [], st)
  else
    toUnit (execute ("mac set dr " ++ toString datarate) true "ok" st)

/-- RN2483.mac_set_adr. -/
def mac_set_adr (b : Bool) (st : DriverState) : Res Unit :=
  toUnit (execute ("mac set adr " ++ bool_to_on_off b) true "ok" st)

/-- RN2483.mac_set_ar. -/
def mac_set_ar (b : Bool) (st : DriverState) : Res Unit :=
  toUnit (execute ("mac set ar " ++ bool_to_on_off b) true "ok" st)

/-- RN2483.mac_save. -/
def mac_save (st : DriverState) : Res Unit :=
  toUnit (execute "mac save" true "ok" st)

/-- RN2483.mac_join. -/
def mac_join (mode : String) (st : DriverState) : Res Unit :=
  toUnit (execute_multiple ("mac join " ++ mode) true ["ok", "accepted"] st)

/-- RN2483.send: hex-encode the UTF-8 bytes of the payload and transmit it
unconfirmed on port 1, without validating the response. -/
def send (data : String) (st : DriverState) : Res Unit :=
  toUnit (execute ("mac tx uncnf 1 " ++ hexlify (utf8Bytes data)) false "ok" st)

/-- Number of pending reads strictly decreases across a successful
`sys_get_hweui` (its single `readline` consumed the head of the stream). -/
theorem sys_get_hweui_ok_reads {st : DriverState} {s : String} {tr : List Event}
    {st1 : DriverState} (h : sys_get_hweui st = (Except.ok s, tr, st1)) :
    st1.reads.length < st.reads.length := by
  unfold sys_get_hweui execute at h
  rcases hr : st.reads with _ | ⟨r, rest⟩ <;> rw [hr] at h
  · exact absurd (congrArg Prod.fst h) (by simp)
  · rcases r with _ | s'
    · exact absurd (congrArg Prod.fst h) (by simp)
    · by_cases hs : s' = ""
      · simp [hs] at h
      · simp [hs] at h
        obtain ⟨-, -, h3⟩ := h
        rw [← h3]
        exact Nat.lt_succ_self rest.length

/-- The `while self.sys_get_hweui() == "invalid_param"` loop of
RN2483._poll_until_ready. One test of the condition issues the query; when it
still answers the sentinel, the body sleeps 10 ms, issues the query again
(its response is discarded), feeds the watchdog, and the condition is tested
again. A raised `NoResponse` from either query propagates. -/
def pollLoop (st : DriverState) : Res Unit :=
  match h : sys_get_hweui st with
  | (Except.error e, tr, st1) => (Except.error e, tr, st1)
  | (Except.ok s, tr, st1) =>
    if s = "invalid_param" then
      match h2 : sys_get_hweui st1 with
      | (Except.error e, tr2, st2) =>
        (Except.error e, tr ++ (Event.sleepMs 10 :: tr2), st2)
      | (Except.ok _, tr2, st2) =>
        let r := pollLoop st2
        (r.1, tr ++ (Event.sleepMs 10 :: tr2) ++ (Event.feed :: r.2.1), r.2.2)
    else
      (Except.ok (), tr, st1)
  termination_by st.reads.length
  decreasing_by
    exact lt_trans (sys_get_hweui_ok_reads h2) (sys_get_hweui_ok_reads h)

/-- RN2483._poll_until_ready: feed, run the poll loop, then drain the UART
input buffer with a raw `read()` and feed again. -/
def poll_until_ready (st : DriverState) : Res Unit :=
  match pollLoop st with
  | (Except.error e, tr, st1) => (Except.error e, Event.feed :: tr, st1)
  | (Except.ok _, tr, st1) =>
    (Except.ok (), Event.feed :: tr ++ [Event.readRaw, Event.feed],
      { st1 with reads := [] })

/-- RN2483.initialize_ttn_otaa: the fixed join-and-configure sequence.
`mac_set_deveui` is called with the cached `self.hw_eui` (set by the first
step; `getD ""` is unreachable because a failed first step aborts). -/
def init_ttn_otaa (cfg : Config) (st : DriverState) : Res Unit :=
  andThen (toUnit (sys_get_hweui st)) fun _ st =>
  andThen (emit [Event.sleepMs 100] st) fun _ st =>
  andThen (mac_reset 868 st) fun _ st =>
  andThen (mac_set_deveui (st.hw_eui.getD "") st) fun _ st =>
  andThen (mac_set_appeui cfg.app_eui st) fun _ st =>
  andThen (mac_set_appkey cfg.app_key st) fun _ st =>
  andThen (mac_set_pwridx 1 st) fun _ st =>
  andThen (mac_set_dr 5 st) fun _ st =>
  andThen (mac_set_adr false st) fun _ st =>
  andThen (mac_set_ar false st) fun _ st =>
  andThen (mac_save st) fun _ st =>
  andThen (emit [Event.sleepMs 3000, Event.feed] st) fun _ st =>
  andThen (mac_join "otaa" st) fun _ st =>
  emit [Event.feed] st

/-- The commands written on the transport, in order. -/
def writesOf (tr : List Event) : List String :=
  tr.filterMap fun e => match e with
    | Event.write s => some s
    | _ => none

/-- The eleven command lines of the join-and-configure sequence, in their
fixed order, as a function of the configuration and the device EUI taken
from the cached hardware EUI. -/
def ttnCommands (cfg : Config) (eui : String) : List String :=
  ["sys get hweui\r\n",
   "mac reset 868\r\n",
   "mac set deveui " ++ eui ++ "\r\n",
   "mac set appeui " ++ cfg.app_eui ++ "\r\n",
   "mac set appkey " ++ cfg.app_key ++ "\r\n",
   "mac set pwridx 1\r\n",
   "mac set dr 5\r\n",
   "mac set adr off\r\n",
   "mac set ar off\r\n",
   "mac save\r\n",
   "mac join otaa\r\n"]

/-- The device EUI the sequence would send: the stripped first response. -/
def euiOf (st : DriverState) : String :=
  match st.reads with
  | some s :: _ => pyStrip s
  | _ => ""

/-- Lines the read loop appends: the decoded truthy reads strictly before
the first `none` (no-data) entry; zero-length reads contribute nothing. -/
def multiAccum : List (Option String) → List String
  | [] => []
  | none :: _ => []
  | some s :: rest => (if s = "" then [] else [pyStrip s]) ++ multiAccum rest

/-- Stream entries left after the read loop: everything after the first
`none` entry (all of its prefix, the `none` included, has been consumed). -/
def multiRest : List (Option String) → List (Option String)
  | [] => []
  | none :: rest => rest
  | some _ :: rest => multiRest rest

/-- The read loop returns exactly the `multiAccum` lines and leaves exactly
the `multiRest` stream. -/
theorem multiLoop_eq (rest : List (Option String)) :
    (multiLoop rest).1 = multiAccum rest ∧ (multiLoop rest).2.2 = multiRest rest := by
  induction rest with
  | nil => constructor <;> rfl
  | cons r rest ih =>
    rcases r with _ | s
    · constructor <;> rfl
    · simp [multiLoop, multiAccum, multiRest, ih.1, ih.2]

/-- Python's falsy test `if not response` on the first read: true for an
exhausted stream, the `None` timeout sentinel, and a zero-length read. -/
def firstReadFalsy : List (Option String) → Bool
  | [] => true
  | none :: _ => true
  | some s :: _ => s = ""

/-- Evaluation of execute_multiple after a truthy first read. -/
theorem execute_multiple_truthy (command : String) (validate : Bool)
    (valid : List String) (s : String) (rest : List (Option String))
    (hw : Option String) (hs : s ≠ "") :
    execute_multiple command validate valid ⟨some s :: rest, hw⟩ =
      ((if validate = true ∧ pyStrip s :: multiAccum rest ≠ valid then
          Except.error (Err.invalidResponseList (pyStrip s :: multiAccum rest) valid)
        else Except.ok (pyStrip s :: multiAccum rest)),
       [Event.feed, Event.write (command ++ "\r\n"), Event.sleepMs 5000,
         Event.feed, Event.readLine] ++ (multiLoop rest).2.1,
       ⟨multiRest rest, hw⟩) := by
  unfold execute_multiple
  simp only [(multiLoop_eq rest).1, (multiLoop_eq rest).2]
  rw [if_neg hs]
  split <;> simp_all [(multiLoop_eq rest).2]

/-- execute_multiple raises NoResponse exactly for a falsy first read. -/
theorem execute_multiple_noResponse_iff (command : String) (validate : Bool)
    (valid : List String) (st : DriverState) :
    (execute_multiple command validate valid st).1 = Except.error Err.noResponse ↔
      firstReadFalsy st.reads = true := by
  obtain ⟨reads, hw⟩ := st
  rcases reads with _ | ⟨r, rest⟩
  · simp [execute_multiple, firstReadFalsy]
  · rcases r with _ | s
    · simp [execute_multiple, firstReadFalsy]
    · by_cases hs : s = ""
      · subst hs
        simp [execute_multiple, firstReadFalsy]
      · rw [execute_multiple_truthy _ _ _ _ _ _ hs]
        simp [firstReadFalsy, hs]
        split <;> simp

/-- Evaluation of execute after a truthy read. -/
theorem execute_truthy (command : String) (validate : Bool) (valid : String)
    (s : String) (rest : List (Option String)) (hw : Option String)
    (hs : s ≠ "") :
    execute command validate valid ⟨some s :: rest, hw⟩ =
      ((if validate = true ∧ pyStrip s ≠ valid then
          Except.error (Err.invalidResponse (pyStrip s) valid)
        else Except.ok (pyStrip s)),
       (if validate = true ∧ pyStrip s ≠ valid then
          [Event.feed, Event.write (command ++ "\r\n"), Event.sleepMs 100,
            Event.feed, Event.readLine]
        else
          [Event.feed, Event.write (command ++ "\r\n"), Event.sleepMs 100,
            Event.feed, Event.readLine, Event.feed]),
       ⟨rest, hw⟩) := by
  unfold execute
  dsimp only
  rw [if_neg hs]
  split <;> simp_all

/-- execute raises NoResponse exactly for a falsy read. -/
theorem execute_noResponse_iff (command : String) (validate : Bool)
    (valid : String) (st : DriverState) :
    (execute command validate valid st).1 = Except.error Err.noResponse ↔
      firstReadFalsy st.reads = true := by
  obtain ⟨reads, hw⟩ := st
  rcases reads with _ | ⟨r, rest⟩
  · simp [execute, firstReadFalsy]
  · rcases r with _ | s
    · simp [execute, firstReadFalsy]
    · by_cases hs : s = ""
      · subst hs
        simp [execute, firstReadFalsy]
      · rw [execute_truthy _ _ _ _ _ _ hs]
        simp [firstReadFalsy, hs]
        split <;> simp

/-- Modelled from the claim's words of C1 (for comparison with the code):
the read loop stops at the first empty or no-data read after the first
line, so the lines accumulated after the first one are the decoded reads
strictly before the first falsy read. -/
def multiAccumClaim : List (Option String) → List String
  | [] => []
  | none :: _ => []
  | some s :: rest => if s = "" then [] else pyStrip s :: multiAccumClaim rest

/-- C1 counterexample. The claim states that after at least one line has
been read, the first empty/no-data read stops the read loop. On the stream
`[some "ok", some "", some "accepted", none]` the loop would then stop at
the zero-length read, accumulate `["ok"]` and, validating against
`["ok", "accepted"]`, raise InvalidResponse; the code instead skips the
zero-length read, keeps looping, and returns `["ok", "accepted"]`. -/
theorem c1_counterexample :
    (execute_multiple "mac join otaa" true ["ok", "accepted"]
      ⟨[some "ok", some "", some "accepted", none], none⟩).1 =
      Except.ok ["ok", "accepted"] ∧
    pyStrip "ok" :: multiAccumClaim [some "", some "accepted", none] = ["ok"] ∧
    ["ok"] ≠ ["ok", "accepted"] := by decide

/-- C1 (amended): execute_multiple raises NoResponse iff the very first
read is falsy (no data or zero length); after a truthy first read, with
validate=true it raises InvalidResponse (carrying actual and expected)
exactly when the accumulated ordered line sequence differs from the
expected sequence and returns the accumulated sequence otherwise, and with
validate=false it returns the accumulated sequence; the loop is stopped by
the first `none` (no-data) read after the first line, while zero-length
reads are skipped without stopping it; reading lines `["", "accepted"]`
followed by no-data yields `["", "accepted"]`. -/
theorem c1_amended :
    ∀ (command : String) (validate : Bool) (valid : List String)
      (st : DriverState),
    ((execute_multiple command validate valid st).1 =
        Except.error Err.noResponse ↔ firstReadFalsy st.reads = true) ∧
    (∀ s rest, st.reads = some s :: rest → s ≠ "" →
      (validate = true →
        (((execute_multiple command validate valid st).1 =
            Except.error (Err.invalidResponseList
              (pyStrip s :: multiAccum rest) valid)) ↔
          pyStrip s :: multiAccum rest ≠ valid) ∧
        (pyStrip s :: multiAccum rest = valid →
          (execute_multiple command validate valid st).1 =
            Except.ok (pyStrip s :: multiAccum rest))) ∧
      (validate = false →
        (execute_multiple command validate valid st).1 =
          Except.ok (pyStrip s :: multiAccum rest))) ∧
    (execute_multiple "mac join otaa" false ["ok", "accepted"]
        ⟨[some "\r\n", some "accepted\r\n", none], none⟩).1 =
      Except.ok ["", "accepted"] := by
  intro command validate valid st
  refine ⟨execute_multiple_noResponse_iff command validate valid st, ?_, by decide⟩
  intro s rest hread hs
  obtain ⟨reads, hw⟩ := st
  simp only at hread
  subst hread
  rw [execute_multiple_truthy _ _ _ _ _ _ hs]
  constructor
  · intro hv
    subst hv
    constructor
    · constructor
      · intro heq
        by_contra hne
        simp [hne] at heq
      · intro hne
        simp [hne]
    · intro heq
      simp [heq]
  · intro hv
    subst hv
    simp

/-- C1 witness: instantiating the amended theorem on the stream
`[some "ok", none]` with the default expected sequence: the accumulated
sequence `["ok"]` differs from `["ok", "accepted"]`, so InvalidResponse is
raised. -/
theorem c1_amended_witness :
    (execute_multiple "mac join otaa" true ["ok", "accepted"]
      ⟨[some "ok", none], none⟩).1 =
      Except.error (Err.invalidResponseList ["ok"] ["ok", "accepted"]) := by
  have h := ((c1_amended "mac join otaa" true ["ok", "accepted"]
    ⟨[some "ok", none], none⟩).2.1 "ok" [none] rfl (by decide)).1 rfl
  exact h.1.mpr (by decide)

/-- C9: the read loop of execute_multiple terminates only on the `none`
(no-data) sentinel: after a truthy first read the loop consumes the stream
exactly up to and including the first `none` entry (`multiRest` remains), a
zero-length read after the first is neither appended nor stops the loop
(the `multiAccum`/`multiRest` equations on `some ""`), and NoResponse is
never raised from the loop. -/
theorem c9_loop_termination :
    ∀ (command : String) (validate : Bool) (valid : List String) (s : String)
      (rest : List (Option String)) (hw : Option String), s ≠ "" →
    (execute_multiple command validate valid ⟨some s :: rest, hw⟩).2.2.reads =
      multiRest rest ∧
    (validate = false →
      (execute_multiple command validate valid ⟨some s :: rest, hw⟩).1 =
        Except.ok (pyStrip s :: multiAccum rest)) ∧
    (execute_multiple command validate valid ⟨some s :: rest, hw⟩).1 ≠
      Except.error Err.noResponse ∧
    (∀ r, multiAccum (some "" :: r) = multiAccum r) ∧
    (∀ r, multiRest (some "" :: r) = multiRest r) ∧
    (∀ r, multiAccum (none :: r) = []) ∧
    (∀ r, multiRest (none :: r) = r) := by
  intro command validate valid s rest hw hs
  rw [execute_multiple_truthy _ _ _ _ _ _ hs]
  refine ⟨rfl, ?_, ?_, ?_, ?_, ?_, ?_⟩
  · intro hv
    subst hv
    simp
  · split <;> simp
  · intro r
    simp [multiAccum]
  · intro r
    simp [multiRest]
  · intro r
    rfl
  · intro r
    rfl

/-- C9 witness: on the stream `[some "a", some "", some "b", none,
some "later"]` the loop skips the zero-length read, appends "b", stops at
the `none`, and leaves `[some "later"]` unread. -/
theorem c9_loop_termination_witness :
    (execute_multiple "mac join otaa" false ["ok", "accepted"]
      ⟨[some "a", some "", some "b", none, some "later"], none⟩).2.2.reads =
      [some "later"] ∧
    (execute_multiple "mac join otaa" false ["ok", "accepted"]
      ⟨[some "a", some "", some "b", none, some "later"], none⟩).1 =
      Except.ok ["a", "b"] := by
  have h := c9_loop_termination "mac join otaa" false ["ok", "accepted"]
    "a" [some "", some "b", none, some "later"] none (by decide)
  exact ⟨by rw [h.1]; decide, by rw [h.2.1 rfl]; decide⟩

/-- C4 counterexample. The claim says execute decodes the bytes to text
stripping the trailing whitespace/line-ending; `pyRStrip` is that
transformation. On the response `"\tok"` it yields `"\tok"`, which differs
from the expected `"ok"`, so under the claim execute with validate=true
must raise InvalidResponse; the code strips leading whitespace as well
(Python `str.strip()`), decodes to `"ok"` and returns it successfully. -/
theorem c4_counterexample :
    (execute "sys get ver" true "ok" ⟨[some "\tok"], none⟩).1 =
      Except.ok "ok" ∧
    pyRStrip "\tok" = "\tok" ∧ "\tok" ≠ "ok" := by decide

/-- C4 (amended): for every command and response stream, execute raises
NoResponse exactly when the single read is falsy (no data); otherwise it
decodes the bytes to text stripping leading and trailing
whitespace/line-ending; with validate=true it raises InvalidResponse,
carrying both the actual and the expected text, exactly when the decoded
text differs from the expected token, and with validate=false it returns
the decoded text unconditionally. -/
theorem c4_amended :
    ∀ (command : String) (validate : Bool) (valid : String)
      (st : DriverState),
    ((execute command validate valid st).1 = Except.error Err.noResponse ↔
      firstReadFalsy st.reads = true) ∧
    (∀ s rest, st.reads = some s :: rest → s ≠ "" →
      (validate = true →
        (((execute command validate valid st).1 =
            Except.error (Err.invalidResponse (pyStrip s) valid)) ↔
          pyStrip s ≠ valid) ∧
        (pyStrip s = valid →
          (execute command validate valid st).1 = Except.ok (pyStrip s))) ∧
      (validate = false →
        (execute command validate valid st).1 = Except.ok (pyStrip s))) := by
  intro command validate valid st
  refine ⟨execute_noResponse_iff command validate valid st, ?_⟩
  intro s rest hread hs
  obtain ⟨reads, hw⟩ := st
  simp only at hread
  subst hread
  rw [execute_truthy _ _ _ _ _ _ hs]
  constructor
  · intro hv
    subst hv
    constructor
    · constructor
      · intro heq
        by_contra hne
        simp [hne] at heq
      · intro hne
        simp [hne]
    · intro heq
      simp [heq]
  · intro hv
    subst hv
    simp

/-- C4 witness: on the single response `"denied\r\n"` expecting `"ok"`,
execute raises InvalidResponse carrying `"denied"` and `"ok"`; with
validate=false the same response is returned decoded. -/
theorem c4_amended_witness :
    (execute "mac save" true "ok" ⟨[some "denied\r\n"], none⟩).1 =
      Except.error (Err.invalidResponse "denied" "ok") ∧
    (execute "sys get ver" false "ok" ⟨[some "demoversion"], none⟩).1 =
      Except.ok "demoversion" := by
  constructor
  · have h := ((c4_amended "mac save" true "ok"
      ⟨[some "denied\r\n"], none⟩).2 "denied\r\n" [] rfl (by decide)).1 rfl
    have h2 := h.1.mpr (by decide)
    simpa using h2
  · have h := ((c4_amended "sys get ver" false "ok"
      ⟨[some "demoversion"], none⟩).2 "demoversion" [] rfl (by decide)).2 rfl
    simpa using h

/-- C5: for every ms in 100..4294967296, sys_sleep writes exactly the bytes
`sys sleep {ms}\r\n`, reads no response (no read event, stream untouched)
and raises no error; for every ms outside the range it raises InvalidInput
before any byte is written (empty trace). -/
theorem c5_sys_sleep :
    ∀ (ms : Int) (st : DriverState),
    (100 ≤ ms ∧ ms ≤ 4294967296 →
      sys_sleep ms st =
        (Except.ok (),
          [Event.write ("sys sleep " ++ toString ms ++ "\r\n"), Event.feed],
          st)) ∧
    (ms < 100 ∨ ms > 4294967296 →
      sys_sleep ms st =
        (Except.error (Err.invalidInput
          "The length to sleep must be between 100 and 4294967296!"), [], st)) := by
  intro ms st
  constructor
  · intro h
    unfold sys_sleep
    rw [if_neg]
    omega
  · intro h
    unfold sys_sleep
    rw [if_pos h]

/-- C5 witness: sys_sleep 100 writes `sys sleep 100\r\n` and succeeds;
sys_sleep 99 and sys_sleep 4294967297 raise InvalidInput with no write. -/
theorem c5_sys_sleep_witness :
    sys_sleep 100 ⟨[], none⟩ =
      (Except.ok (), [Event.write "sys sleep 100\r\n", Event.feed],
        ⟨[], none⟩) ∧
    sys_sleep 99 ⟨[], none⟩ =
      (Except.error (Err.invalidInput
        "The length to sleep must be between 100 and 4294967296!"), [],
        ⟨[], none⟩) ∧
    sys_sleep 4294967297 ⟨[], none⟩ =
      (Except.error (Err.invalidInput
        "The length to sleep must be between 100 and 4294967296!"), [],
        ⟨[], none⟩) := by
  refine ⟨?_, ?_, ?_⟩
  · have h := (c5_sys_sleep 100 ⟨[], none⟩).1 (by decide)
    simpa using h
  · exact (c5_sys_sleep 99 ⟨[], none⟩).2 (by decide)
  · exact (c5_sys_sleep 4294967297 ⟨[], none⟩).2 (by decide)

/-- Every run of execute writes exactly its one command line. -/
theorem execute_writes (command : String) (validate : Bool) (valid : String)
    (st : DriverState) :
    writesOf (execute command validate valid st).2.1 = [command ++ "\r\n"] := by
  obtain ⟨reads, hw⟩ := st
  rcases reads with _ | ⟨r, rest⟩
  · simp [execute, writesOf]
  · rcases r with _ | s
    · simp [execute, writesOf]
    · by_cases hs : s = ""
      · subst hs
        simp [execute, writesOf]
      · rw [execute_truthy _ _ _ _ _ _ hs]
        split <;> simp [writesOf]

/-- The read loop never writes on the transport. -/
theorem multiLoop_no_writes (rest : List (Option String)) :
    writesOf (multiLoop rest).2.1 = [] := by
  induction rest with
  | nil => rfl
  | cons r rest ih =>
    rcases r with _ | s
    · rfl
    · simp [multiLoop, writesOf] at ih ⊢
      exact ih

/-- Every run of execute_multiple writes exactly its one command line. -/
theorem execute_multiple_writes (command : String) (validate : Bool)
    (valid : List String) (st : DriverState) :
    writesOf (execute_multiple command validate valid st).2.1 =
      [command ++ "\r\n"] := by
  obtain ⟨reads, hw⟩ := st
  rcases reads with _ | ⟨r, rest⟩
  · simp [execute_multiple, writesOf]
  · rcases r with _ | s
    · simp [execute_multiple, writesOf]
    · by_cases hs : s = ""
      · subst hs
        simp [execute_multiple, writesOf]
      · rw [execute_multiple_truthy _ _ _ _ _ _ hs]
        have h := multiLoop_no_writes rest
        split <;> simp [writesOf] at h ⊢ <;> exact h

/-- With validation off, execute never raises InvalidResponse: it either
returns the decoded line or raises NoResponse. -/
theorem execute_novalidate (command : String) (valid : String)
    (st : DriverState) :
    (execute command false valid st).1 = Except.error Err.noResponse ∨
    ∃ s, (execute command false valid st).1 = Except.ok s := by
  obtain ⟨reads, hw⟩ := st
  rcases reads with _ | ⟨r, rest⟩
  · left; rfl
  · rcases r with _ | s
    · left; rfl
    · by_cases hs : s = ""
      · subst hs
        left; rfl
      · right
        rw [execute_truthy _ _ _ _ _ _ hs]
        exact ⟨pyStrip s, by simp⟩

/-- C6: mac_set_appeui with a length-16 argument and mac_set_appkey with a
length-32 argument write exactly their command line and validate the single
response against "ok"; with any other length they raise InvalidInput and
write nothing (empty trace, state untouched). -/
theorem c6_app_credentials :
    ∀ (appeui appkey : String) (st : DriverState),
    (appeui.length ≠ 16 →
      mac_set_appeui appeui st =
        (Except.error (Err.invalidInput
          "The AppEUI needs to be exact 16 characters long!"), [], st)) ∧
    (appeui.length = 16 →
      writesOf (mac_set_appeui appeui st).2.1 =
        ["mac set appeui " ++ appeui ++ "\r\n"] ∧
      (∀ s rest, st.reads = some s :: rest → s ≠ "" →
        ((mac_set_appeui appeui st).1 = Except.ok () ↔ pyStrip s = "ok") ∧
        (pyStrip s ≠ "ok" →
          (mac_set_appeui appeui st).1 =
            Except.error (Err.invalidResponse (pyStrip s) "ok")))) ∧
    (appkey.length ≠ 32 →
      mac_set_appkey appkey st =
        (Except.error (Err.invalidInput
          "The AppKey needs to be exact 32 characters long!"), [], st)) ∧
    (appkey.length = 32 →
      writesOf (mac_set_appkey appkey st).2.1 =
        ["mac set appkey " ++ appkey ++ "\r\n"] ∧
      (∀ s rest, st.reads = some s :: rest → s ≠ "" →
        ((mac_set_appkey appkey st).1 = Except.ok () ↔ pyStrip s = "ok") ∧
        (pyStrip s ≠ "ok" →
          (mac_set_appkey appkey st).1 =
            Except.error (Err.invalidResponse (pyStrip s) "ok")))) := by
  intro appeui appkey st
  refine ⟨?_, ?_, ?_, ?_⟩
  · intro h
    unfold mac_set_appeui
    rw [if_pos h]
  · intro h
    unfold mac_set_appeui
    rw [if_neg (by simp [h])]
    refine ⟨by simp [toUnit, execute_writes], ?_⟩
    intro s rest hread hs
    obtain ⟨reads, hw⟩ := st
    simp only at hread
    subst hread
    rw [execute_truthy _ _ _ _ _ _ hs]
    constructor
    · constructor
      · intro hok
        by_contra hne
        simp [toUnit, hne, Except.map] at hok
      · intro heq
        simp [toUnit, heq, Except.map]
    · intro hne
      simp [toUnit, hne, Except.map]
  · intro h
    unfold mac_set_appkey
    rw [if_pos h]
  · intro h
    unfold mac_set_appkey
    rw [if_neg (by simp [h])]
    refine ⟨by simp [toUnit, execute_writes], ?_⟩
    intro s rest hread hs
    obtain ⟨reads, hw⟩ := st
    simp only at hread
    subst hread
    rw [execute_truthy _ _ _ _ _ _ hs]
    constructor
    · constructor
      · intro hok
        by_contra hne
        simp [toUnit, hne, Except.map] at hok
      · intro heq
        simp [toUnit, heq, Except.map]
    · intro hne
      simp [toUnit, hne, Except.map]

/-- C6 witness: the length-5 AppEUI "wrong" is rejected with no write; the
test credentials of the right lengths are written and accepted on "ok". -/
theorem c6_app_credentials_witness :
    mac_set_appeui "wrong" ⟨[some "ok"], none⟩ =
      (Except.error (Err.invalidInput
        "The AppEUI needs to be exact 16 characters long!"), [],
        ⟨[some "ok"], none⟩) ∧
    writesOf (mac_set_appeui "0123456789012345" ⟨[some "ok"], none⟩).2.1 =
      ["mac set appeui 0123456789012345\r\n"] ∧
    (mac_set_appeui "0123456789012345" ⟨[some "ok"], none⟩).1 =
      Except.ok () ∧
    writesOf (mac_set_appkey "01234567890123450123456789012345"
        ⟨[some "ok"], none⟩).2.1 =
      ["mac set appkey 01234567890123450123456789012345\r\n"] ∧
    (mac_set_appkey "01234567890123450123456789012345"
        ⟨[some "ok"], none⟩).1 = Except.ok () := by
  have h1 := (c6_app_credentials "wrong" "k" ⟨[some "ok"], none⟩).1 (by decide)
  have h2 := (c6_app_credentials "0123456789012345" "k"
    ⟨[some "ok"], none⟩).2.1 (by decide)
  have h3 := (c6_app_credentials "e" "01234567890123450123456789012345"
    ⟨[some "ok"], none⟩).2.2.2 (by decide)
  refine ⟨h1, by simpa using h2.1, ?_, by simpa using h3.1, ?_⟩
  · exact ((h2.2 "ok" [] rfl (by decide)).1).mpr (by decide)
  · exact ((h3.2 "ok" [] rfl (by decide)).1).mpr (by decide)

/-- C7: for every payload string, send writes exactly
`mac tx uncnf 1 {hex}\r\n` with hex the lowercase hexadecimal encoding of
the UTF-8 bytes of the payload, and never raises InvalidResponse (the
response is not validated); `send("PeterMaffay")` writes
`mac tx uncnf 1 50657465724d6166666179\r\n`. -/
theorem c7_send :
    ∀ (data : String) (st : DriverState),
    writesOf (send data st).2.1 =
      ["mac tx uncnf 1 " ++ hexlify (utf8Bytes data) ++ "\r\n"] ∧
    (∀ a e, (send data st).1 ≠ Except.error (Err.invalidResponse a e)) ∧
    (∀ a e, (send data st).1 ≠ Except.error (Err.invalidResponseList a e)) ∧
    hexlify (utf8Bytes "PeterMaffay") = "50657465724d6166666179" := by
  intro data st
  refine ⟨by simp [send, toUnit, execute_writes], ?_, ?_, by decide⟩
  · intro a e
    rcases execute_novalidate ("mac tx uncnf 1 " ++ hexlify (utf8Bytes data))
      "ok" st with h | ⟨s, h⟩ <;> simp [send, toUnit, h, Except.map]
  · intro a e
    rcases execute_novalidate ("mac tx uncnf 1 " ++ hexlify (utf8Bytes data))
      "ok" st with h | ⟨s, h⟩ <;> simp [send, toUnit, h, Except.map]

/-- Extract the three components of an equality of results. -/
theorem res_eq_parts {α : Type} {a d : Except Err α} {b e : List Event}
    {c f : DriverState} (h : (⟨a, b, c⟩ : Res α) = ⟨d, e, f⟩) :
    a = d ∧ b = e ∧ c = f :=
  ⟨congrArg Prod.fst h, congrArg (fun x => x.2.1) h,
    congrArg (fun x => x.2.2) h⟩

/-- Events of one successful (truthy-read) hardware-EUI query. -/
def hweuiQueryEvs : List Event :=
  [Event.feed, Event.write "sys get hweui\r\n", Event.sleepMs 100, Event.feed,
    Event.readLine, Event.feed]

/-- Events of one hardware-EUI query whose read is falsy (NoResponse). -/
def hweuiQueryFailEvs : List Event :=
  [Event.feed, Event.write "sys get hweui\r\n", Event.sleepMs 100, Event.feed,
    Event.readLine]

/-- Evaluation of sys_get_hweui on a truthy read: the decoded line is both
returned and cached, whatever its content. -/
theorem sys_get_hweui_truthy (s : String) (rest : List (Option String))
    (hw : Option String) (hs : s ≠ "") :
    sys_get_hweui ⟨some s :: rest, hw⟩ =
      (Except.ok (pyStrip s), hweuiQueryEvs, ⟨rest, some (pyStrip s)⟩) := by
  unfold sys_get_hweui
  rw [execute_truthy _ _ _ _ _ _ hs]
  simp [hweuiQueryEvs]

/-- The poll loop exits as soon as the condition query answers something
other than the sentinel. -/
theorem pollLoop_exit {st st1 : DriverState} {s : String} {tr : List Event}
    (h : sys_get_hweui st = (Except.ok s, tr, st1))
    (hs : s ≠ "invalid_param") :
    pollLoop st = (Except.ok (), tr, st1) := by
  unfold pollLoop
  split
  · next e tr2 st2 heq =>
      rw [h] at heq
      exact absurd (congrArg Prod.fst heq) (by simp)
  · next s2 tr2 st2 heq =>
      rw [h] at heq
      obtain ⟨h1, h2, h3⟩ := res_eq_parts heq
      obtain rfl : s = s2 := Except.ok.inj h1
      rw [if_neg hs, h2, h3]

/-- A failing condition query propagates its error out of the poll loop. -/
theorem pollLoop_err {st st1 : DriverState} {e : Err} {tr : List Event}
    (h : sys_get_hweui st = (Except.error e, tr, st1)) :
    pollLoop st = (Except.error e, tr, st1) := by
  unfold pollLoop
  split
  · next e2 tr2 st2 heq =>
      rw [h] at heq
      obtain ⟨h1, h2, h3⟩ := res_eq_parts heq
      obtain rfl : e = e2 := Except.error.inj h1
      rw [h2, h3]
  · next s2 tr2 st2 heq =>
      rw [h] at heq
      exact absurd (congrArg Prod.fst heq) (by simp)

/-- When the condition query answers the sentinel, the loop body sleeps
10 ms, queries again (response discarded), feeds the watchdog, and the
condition is re-tested: the loop recurses on the state after the second
query. -/
theorem pollLoop_retry {st st1 st2 : DriverState} {s2 : String}
    {tr tr2 : List Event}
    (h : sys_get_hweui st = (Except.ok "invalid_param", tr, st1))
    (h2 : sys_get_hweui st1 = (Except.ok s2, tr2, st2)) :
    pollLoop st = ((pollLoop st2).1,
      tr ++ (Event.sleepMs 10 :: tr2) ++ (Event.feed :: (pollLoop st2).2.1),
      (pollLoop st2).2.2) := by
  generalize hx : pollLoop st2 = x
  unfold pollLoop
  split
  · next e tr' st' heq =>
      rw [h] at heq
      exact absurd (congrArg Prod.fst heq) (by simp)
  · next s' tr' st' heq =>
      rw [h] at heq
      obtain ⟨h1, htr, hst⟩ := res_eq_parts heq
      obtain rfl : "invalid_param" = s' := Except.ok.inj h1
      rw [if_pos rfl]
      split
      · next e tr2' st2' heq2 =>
          rw [← hst, h2] at heq2
          exact absurd (congrArg Prod.fst heq2) (by simp)
      · next s2' tr2' st2' heq2 =>
          rw [← hst, h2] at heq2
          obtain ⟨h1', htr', hst'⟩ := res_eq_parts heq2
          subst htr htr' hst'
          rw [hx]

/-- Modelled from the claim's words of C2 (for comparison with the code):
the readiness poll issues the hardware-EUI query exactly once per attempt
and repeats, with a 10 time-unit sleep and a watchdog feed between
attempts, until the query's (unvalidated) response differs from
"invalid_param"; the decoded response is cached each time. Returns
(outcome, events, remaining stream, cached EUI). -/
def pollClaimLoop : List (Option String) → Option String →
    Except Err Unit × List Event × List (Option String) × Option String
  | [], hw => (Except.error Err.noResponse, hweuiQueryFailEvs, [], hw)
  | none :: rest, hw => (Except.error Err.noResponse, hweuiQueryFailEvs, rest, hw)
  | some s :: rest, hw =>
    if s = "" then (Except.error Err.noResponse, hweuiQueryFailEvs, rest, hw)
    else if pyStrip s = "invalid_param" then
      let r := pollClaimLoop rest (some (pyStrip s))
      (r.1, hweuiQueryEvs ++ (Event.sleepMs 10 :: Event.feed :: r.2.1),
        r.2.2.1, r.2.2.2)
    else (Except.ok (), hweuiQueryEvs, rest, some (pyStrip s))

/-- C2 counterexample. The claim says the poll issues the query exactly
once per attempt until the response differs from "invalid_param": on the
response stream `[some "invalid_param", some "A"]` that poll succeeds after
one retry with the EUI "A" cached (second and third conjuncts, on the model
built from the claim's words). The code instead issues a second, discarded
query inside each loop iteration: it consumes "A" without testing it,
re-tests with an exhausted stream, and raises NoResponse (first
conjunct). -/
theorem c2_counterexample :
    (poll_until_ready ⟨[some "invalid_param", some "A"], none⟩).1 =
      Except.error Err.noResponse ∧
    (pollClaimLoop [some "invalid_param", some "A"] none).1 = Except.ok () ∧
    (pollClaimLoop [some "invalid_param", some "A"] none).2.2.2 = some "A" := by
  have hip : pyStrip "invalid_param" = "invalid_param" := by decide
  have h1 : sys_get_hweui ⟨[some "invalid_param", some "A"], none⟩ =
      (Except.ok "invalid_param", hweuiQueryEvs,
        ⟨[some "A"], some "invalid_param"⟩) := by
    simpa [hip] using
      sys_get_hweui_truthy "invalid_param" [some "A"] none (by decide)
  have h2 : sys_get_hweui ⟨[some "A"], some "invalid_param"⟩ =
      (Except.ok "A", hweuiQueryEvs, ⟨[], some "A"⟩) := by
    simpa using sys_get_hweui_truthy "A" [] (some "invalid_param") (by decide)
  have h3 : sys_get_hweui ⟨[], some "A"⟩ =
      (Except.error Err.noResponse, hweuiQueryFailEvs, ⟨[], some "A"⟩) := rfl
  have hrec := pollLoop_err h3
  have hloop := pollLoop_retry h1 h2
  rw [hrec] at hloop
  refine ⟨?_, by decide, by decide⟩
  unfold poll_until_ready
  rw [hloop]

/-- C2 (amended): each loop iteration of the readiness poll issues the
hardware-EUI query twice — once as the `while` condition test and once in
the loop body, whose response is discarded — with a 10 time-unit sleep
between them and a watchdog feed after the body query; the loop exits when
the condition query's response differs from "invalid_param". For the
response sequence `["invalid_param", "invalid_param", "example_hw_eui"]`
the poll issues exactly three queries (two after the first) before
returning, leaves the cached hardware EUI equal to "example_hw_eui", and
drains the remaining input. -/
theorem c2_amended :
    ∀ (rest : List (Option String)) (hw0 : Option String),
    poll_until_ready ⟨some "invalid_param" :: some "invalid_param" ::
        some "example_hw_eui" :: rest, hw0⟩ =
      (Except.ok (),
        [Event.feed,
         Event.feed, Event.write "sys get hweui\r\n", Event.sleepMs 100,
           Event.feed, Event.readLine, Event.feed,
         Event.sleepMs 10,
         Event.feed, Event.write "sys get hweui\r\n", Event.sleepMs 100,
           Event.feed, Event.readLine, Event.feed,
         Event.feed,
         Event.feed, Event.write "sys get hweui\r\n", Event.sleepMs 100,
           Event.feed, Event.readLine, Event.feed,
         Event.readRaw, Event.feed],
        ⟨[], some "example_hw_eui"⟩) := by
  intro rest hw0
  have hip : pyStrip "invalid_param" = "invalid_param" := by decide
  have hex : pyStrip "example_hw_eui" = "example_hw_eui" := by decide
  have h1 : sys_get_hweui ⟨some "invalid_param" :: some "invalid_param" ::
      some "example_hw_eui" :: rest, hw0⟩ =
      (Except.ok "invalid_param", hweuiQueryEvs,
        ⟨some "invalid_param" :: some "example_hw_eui" :: rest,
          some "invalid_param"⟩) := by
    simpa [hip] using sys_get_hweui_truthy "invalid_param"
      (some "invalid_param" :: some "example_hw_eui" :: rest) hw0 (by decide)
  have h2 : sys_get_hweui ⟨some "invalid_param" :: some "example_hw_eui" ::
      rest, some "invalid_param"⟩ =
      (Except.ok "invalid_param", hweuiQueryEvs,
        ⟨some "example_hw_eui" :: rest, some "invalid_param"⟩) := by
    simpa [hip] using sys_get_hweui_truthy "invalid_param"
      (some "example_hw_eui" :: rest) (some "invalid_param") (by decide)
  have h3 : sys_get_hweui ⟨some "example_hw_eui" :: rest,
      some "invalid_param"⟩ =
      (Except.ok "example_hw_eui", hweuiQueryEvs,
        ⟨rest, some "example_hw_eui"⟩) := by
    simpa [hex] using sys_get_hweui_truthy "example_hw_eui" rest
      (some "invalid_param") (by decide)
  have hexit := pollLoop_exit h3 (by decide)
  have hloop := pollLoop_retry h1 h2
  rw [hexit] at hloop
  unfold poll_until_ready
  rw [hloop]
  simp [hweuiQueryEvs]

/-- toUnit does not change the trace. -/
theorem toUnit_trace {α : Type} (r : Res α) : (toUnit r).2.1 = r.2.1 := rfl

/-- execute never changes the cached hardware EUI. -/
theorem execute_hw (command : String) (validate : Bool) (valid : String)
    (st : DriverState) :
    (execute command validate valid st).2.2.hw_eui = st.hw_eui := by
  obtain ⟨reads, hw⟩ := st
  rcases reads with _ | ⟨r, rest⟩
  · rfl
  · rcases r with _ | s
    · rfl
    · by_cases hs : s = ""
      · subst hs; rfl
      · rw [execute_truthy _ _ _ _ _ _ hs]

/-- execute_multiple never changes the cached hardware EUI. -/
theorem execute_multiple_hw (command : String) (validate : Bool)
    (valid : List String) (st : DriverState) :
    (execute_multiple command validate valid st).2.2.hw_eui = st.hw_eui := by
  obtain ⟨reads, hw⟩ := st
  rcases reads with _ | ⟨r, rest⟩
  · rfl
  · rcases r with _ | s
    · rfl
    · by_cases hs : s = ""
      · subst hs; rfl
      · rw [execute_multiple_truthy _ _ _ _ _ _ hs]

/-- Rewriting a sequenced computation when its first step succeeds. -/
theorem andThen_ok {α β : Type} {r : Res α} {f : α → DriverState → Res β}
    {a : α} {tr : List Event} {st : DriverState}
    (h : r = (Except.ok a, tr, st)) :
    andThen r f = ((f a st).1, tr ++ (f a st).2.1, (f a st).2.2) := by
  subst h; rfl

/-- Rewriting a sequenced computation when its first step raises. -/
theorem andThen_err {α β : Type} {r : Res α} {f : α → DriverState → Res β}
    {e : Err} {tr : List Event} {st : DriverState}
    (h : r = (Except.error e, tr, st)) :
    andThen r f = (Except.error e, tr, st) := by
  subst h; rfl

/-- Rewriting a sequenced computation headed by a pure event emission. -/
theorem andThen_emit {β : Type} (evs : List Event) (st : DriverState)
    (f : Unit → DriverState → Res β) :
    andThen (emit evs st) f = ((f () st).1, evs ++ (f () st).2.1, (f () st).2.2) :=
  rfl

/-- writesOf distributes over trace concatenation. -/
theorem writesOf_append (a b : List Event) :
    writesOf (a ++ b) = writesOf a ++ writesOf b :=
  List.filterMap_append a b _

/-- Any single-response command step either raises or succeeds; either way
it writes exactly its command line and preserves the cached EUI. -/
theorem execStep_cases (command : String) (validate : Bool) (valid : String)
    (st : DriverState) :
    (∃ e tr stx, toUnit (execute command validate valid st) =
        (Except.error e, tr, stx) ∧
      writesOf tr = [command ++ "\r\n"] ∧ stx.hw_eui = st.hw_eui) ∨
    (∃ tr stx, toUnit (execute command validate valid st) =
        (Except.ok (), tr, stx) ∧
      writesOf tr = [command ++ "\r\n"] ∧ stx.hw_eui = st.hw_eui) := by
  rcases hE : execute command validate valid st with ⟨res, tr, stx⟩
  have hhw : stx.hw_eui = st.hw_eui := by
    have h1 := execute_hw command validate valid st
    rw [hE] at h1
    exact h1
  have hwr : writesOf tr = [command ++ "\r\n"] := by
    have h1 := execute_writes command validate valid st
    rw [hE] at h1
    exact h1
  cases res with
  | error e =>
    left
    exact ⟨e, tr, stx, rfl, hwr, hhw⟩
  | ok a =>
    right
    exact ⟨tr, stx, rfl, hwr, hhw⟩

/-- Any multi-response command step either raises or succeeds; either way
it writes exactly its command line and preserves the cached EUI. -/
theorem execMultStep_cases (command : String) (validate : Bool)
    (valid : List String) (st : DriverState) :
    (∃ e tr stx, toUnit (execute_multiple command validate valid st) =
        (Except.error e, tr, stx) ∧
      writesOf tr = [command ++ "\r\n"] ∧ stx.hw_eui = st.hw_eui) ∨
    (∃ tr stx, toUnit (execute_multiple command validate valid st) =
        (Except.ok (), tr, stx) ∧
      writesOf tr = [command ++ "\r\n"] ∧ stx.hw_eui = st.hw_eui) := by
  rcases hE : execute_multiple command validate valid st with ⟨res, tr, stx⟩
  have hhw : stx.hw_eui = st.hw_eui := by
    have h1 := execute_multiple_hw command validate valid st
    rw [hE] at h1
    exact h1
  have hwr : writesOf tr = [command ++ "\r\n"] := by
    have h1 := execute_multiple_writes command validate valid st
    rw [hE] at h1
    exact h1
  cases res with
  | error e =>
    left
    exact ⟨e, tr, stx, rfl, hwr, hhw⟩
  | ok a =>
    right
    exact ⟨tr, stx, rfl, hwr, hhw⟩

/-- writesOf computation rules. -/
theorem writesOf_nil : writesOf [] = [] := rfl

/-- A write event contributes its payload. -/
theorem writesOf_cons_write (s : String) (tr : List Event) :
    writesOf (Event.write s :: tr) = s :: writesOf tr := rfl

/-- A sleep event contributes nothing. -/
theorem writesOf_cons_sleep (n : Nat) (tr : List Event) :
    writesOf (Event.sleepMs n :: tr) = writesOf tr := rfl

/-- A feed event contributes nothing. -/
theorem writesOf_cons_feed (tr : List Event) :
    writesOf (Event.feed :: tr) = writesOf tr := rfl

/-- The writes of the join-and-configure sequence are always an initial
segment of the eleven fixed command lines (with the device EUI taken from
the first response), and a successful run writes all eleven in order. -/
theorem init_writes (cfg : Config) (st : DriverState) :
    (∃ k, writesOf (init_ttn_otaa cfg st).2.1 =
      (ttnCommands cfg (euiOf st)).take k) ∧
    ((init_ttn_otaa cfg st).1 = Except.ok () →
      writesOf (init_ttn_otaa cfg st).2.1 = ttnCommands cfg (euiOf st)) := by
  have whq : writesOf hweuiQueryEvs = ["sys get hweui\r\n"] := by decide
  have whqf : writesOf hweuiQueryFailEvs = ["sys get hweui\r\n"] := by decide
  obtain ⟨reads, hw⟩ := st
  unfold init_ttn_otaa
  rcases reads with _ | ⟨r, rest⟩
  · rw [andThen_err (show toUnit (sys_get_hweui ⟨[], hw⟩) =
      (Except.error Err.noResponse, hweuiQueryFailEvs, ⟨[], hw⟩) from rfl)]
    exact ⟨⟨1, by simp [whqf, ttnCommands]⟩, by simp⟩
  rcases r with _ | s
  · rw [andThen_err (show toUnit (sys_get_hweui ⟨none :: rest, hw⟩) =
      (Except.error Err.noResponse, hweuiQueryFailEvs, ⟨rest, hw⟩) from rfl)]
    exact ⟨⟨1, by simp [whqf, ttnCommands]⟩, by simp⟩
  by_cases hs : s = ""
  · subst hs
    rw [andThen_err (show toUnit (sys_get_hweui ⟨some "" :: rest, hw⟩) =
      (Except.error Err.noResponse, hweuiQueryFailEvs, ⟨rest, hw⟩) from rfl)]
    exact ⟨⟨1, by simp [whqf, ttnCommands]⟩, by simp⟩
  have heui : euiOf ⟨some s :: rest, hw⟩ = pyStrip s := rfl
  rw [heui]
  have h1 : toUnit (sys_get_hweui ⟨some s :: rest, hw⟩) =
      (Except.ok (), hweuiQueryEvs, ⟨rest, some (pyStrip s)⟩) := by
    rw [sys_get_hweui_truthy s rest hw hs]; rfl
  simp only [andThen_ok h1, andThen_emit]
  unfold mac_reset
  rcases execStep_cases ("mac reset " ++ toString (868 : Int)) false "ok"
      ⟨rest, some (pyStrip s)⟩ with
    ⟨e2, tr2, st2, h2, hw2, hh2⟩ | ⟨tr2, st2, h2, hw2, hh2⟩
  · rw [show ("mac reset " ++ toString (868 : Int)) ++ "\r\n" =
      "mac reset 868\r\n" from by decide] at hw2
    simp only [andThen_err h2]
    exact ⟨⟨2, by simp [writesOf_append, whq, hw2, writesOf_nil, writesOf_cons_sleep, writesOf_cons_feed, ttnCommands]⟩, by simp⟩
  rw [show ("mac reset " ++ toString (868 : Int)) ++ "\r\n" =
    "mac reset 868\r\n" from by decide] at hw2
  simp only [andThen_ok h2]
  unfold mac_set_deveui
  simp only [hh2, Option.getD_some]
  rcases execStep_cases ("mac set deveui " ++ pyStrip s) true "ok" st2 with
    ⟨e3, tr3, st3, h3, hw3, hh3⟩ | ⟨tr3, st3, h3, hw3, hh3⟩
  · simp only [andThen_err h3]
    exact ⟨⟨3, by simp [writesOf_append, whq, hw2, hw3, writesOf_nil, writesOf_cons_sleep, writesOf_cons_feed, ttnCommands]⟩,
      by simp⟩
  simp only [andThen_ok h3]
  by_cases he : cfg.app_eui.length = 16
  case neg =>
    rw [show mac_set_appeui cfg.app_eui st3 =
        (Except.error (Err.invalidInput
          "The AppEUI needs to be exact 16 characters long!"), [], st3) from by
      unfold mac_set_appeui; rw [if_pos he]]
    simp only [andThen_err rfl]
    exact ⟨⟨3, by simp [writesOf_append, whq, hw2, hw3, writesOf_nil, writesOf_cons_sleep, writesOf_cons_feed, ttnCommands]⟩,
      by simp⟩
  case pos =>
  rw [show mac_set_appeui cfg.app_eui st3 =
      toUnit (execute ("mac set appeui " ++ cfg.app_eui) true "ok" st3) from by
    unfold mac_set_appeui; rw [if_neg (by simp [he])]]
  rcases execStep_cases ("mac set appeui " ++ cfg.app_eui) true "ok" st3 with
    ⟨e4, tr4, st4, h4, hw4, hh4⟩ | ⟨tr4, st4, h4, hw4, hh4⟩
  · simp only [andThen_err h4]
    exact ⟨⟨4, by simp [writesOf_append, whq, hw2, hw3, hw4, writesOf_nil, writesOf_cons_sleep, writesOf_cons_feed,
      ttnCommands]⟩, by simp⟩
  simp only [andThen_ok h4]
  by_cases hk : cfg.app_key.length = 32
  case neg =>
    rw [show mac_set_appkey cfg.app_key st4 =
        (Except.error (Err.invalidInput
          "The AppKey needs to be exact 32 characters long!"), [], st4) from by
      unfold mac_set_appkey; rw [if_pos hk]]
    simp only [andThen_err rfl]
    exact ⟨⟨4, by simp [writesOf_append, whq, hw2, hw3, hw4, writesOf_nil, writesOf_cons_sleep, writesOf_cons_feed,
      ttnCommands]⟩, by simp⟩
  case pos =>
  rw [show mac_set_appkey cfg.app_key st4 =
      toUnit (execute ("mac set appkey " ++ cfg.app_key) true "ok" st4) from by
    unfold mac_set_appkey; rw [if_neg (by simp [hk])]]
  rcases execStep_cases ("mac set appkey " ++ cfg.app_key) true "ok" st4 with
    ⟨e5, tr5, st5, h5, hw5, hh5⟩ | ⟨tr5, st5, h5, hw5, hh5⟩
  · simp only [andThen_err h5]
    exact ⟨⟨5, by simp [writesOf_append, whq, hw2, hw3, hw4, hw5, writesOf_nil, writesOf_cons_sleep, writesOf_cons_feed,
      ttnCommands]⟩, by simp⟩
  simp only [andThen_ok h5]
  rw [show ∀ stx : DriverState, mac_set_pwridx 1 stx =
      toUnit (execute ("mac set pwridx " ++ toString (1 : Int)) true "ok" stx) from
    fun stx => by unfold mac_set_pwridx; rw [if_neg (by decide)]]
  rcases execStep_cases ("mac set pwridx " ++ toString (1 : Int)) true "ok" st5 with
    ⟨e6, tr6, st6, h6, hw6, hh6⟩ | ⟨tr6, st6, h6, hw6, hh6⟩
  · rw [show ("mac set pwridx " ++ toString (1 : Int)) ++ "\r\n" =
      "mac set pwridx 1\r\n" from by decide] at hw6
    simp only [andThen_err h6]
    exact ⟨⟨6, by simp [writesOf_append, whq, hw2, hw3, hw4, hw5, hw6, writesOf_nil, writesOf_cons_sleep, writesOf_cons_feed,
      ttnCommands]⟩, by simp⟩
  rw [show ("mac set pwridx " ++ toString (1 : Int)) ++ "\r\n" =
    "mac set pwridx 1\r\n" from by decide] at hw6
  simp only [andThen_ok h6]
  rw [show ∀ stx : DriverState, mac_set_dr 5 stx =
      toUnit (execute ("mac set dr " ++ toString (5 : Int)) true "ok" stx) from
    fun stx => by unfold mac_set_dr; rw [if_neg (by decide)]]
  rcases execStep_cases ("mac set dr " ++ toString (5 : Int)) true "ok" st6 with
    ⟨e7, tr7, st7, h7, hw7, hh7⟩ | ⟨tr7, st7, h7, hw7, hh7⟩
  · rw [show ("mac set dr " ++ toString (5 : Int)) ++ "\r\n" =
      "mac set dr 5\r\n" from by decide] at hw7
    simp only [andThen_err h7]
    exact ⟨⟨7, by simp [writesOf_append, whq, hw2, hw3, hw4, hw5, hw6, hw7,
      writesOf_nil, writesOf_cons_sleep, writesOf_cons_feed, ttnCommands]⟩, by simp⟩
  rw [show ("mac set dr " ++ toString (5 : Int)) ++ "\r\n" =
    "mac set dr 5\r\n" from by decide] at hw7
  simp only [andThen_ok h7]
  unfold mac_set_adr
  rcases execStep_cases ("mac set adr " ++ bool_to_on_off false) true "ok" st7 with
    ⟨e8, tr8, st8, h8, hw8, hh8⟩ | ⟨tr8, st8, h8, hw8, hh8⟩
  · rw [show ("mac set adr " ++ bool_to_on_off false) ++ "\r\n" =
      "mac set adr off\r\n" from by decide] at hw8
    simp only [andThen_err h8]
    exact ⟨⟨8, by simp [writesOf_append, whq, hw2, hw3, hw4, hw5, hw6, hw7, hw8,
      writesOf_nil, writesOf_cons_sleep, writesOf_cons_feed, ttnCommands]⟩, by simp⟩
  rw [show ("mac set adr " ++ bool_to_on_off false) ++ "\r\n" =
    "mac set adr off\r\n" from by decide] at hw8
  simp only [andThen_ok h8]
  unfold mac_set_ar
  rcases execStep_cases ("mac set ar " ++ bool_to_on_off false) true "ok" st8 with
    ⟨e9, tr9, st9, h9, hw9, hh9⟩ | ⟨tr9, st9, h9, hw9, hh9⟩
  · rw [show ("mac set ar " ++ bool_to_on_off false) ++ "\r\n" =
      "mac set ar off\r\n" from by decide] at hw9
    simp only [andThen_err h9]
    exact ⟨⟨9, by simp [writesOf_append, whq, hw2, hw3, hw4, hw5, hw6, hw7, hw8,
      hw9, writesOf_nil, writesOf_cons_sleep, writesOf_cons_feed, ttnCommands]⟩, by simp⟩
  rw [show ("mac set ar " ++ bool_to_on_off false) ++ "\r\n" =
    "mac set ar off\r\n" from by decide] at hw9
  simp only [andThen_ok h9]
  unfold mac_save
  rcases execStep_cases "mac save" true "ok" st9 with
    ⟨e10, tr10, st10, h10, hw10, hh10⟩ | ⟨tr10, st10, h10, hw10, hh10⟩
  · rw [show "mac save" ++ "\r\n" = "mac save\r\n" from by decide] at hw10
    simp only [andThen_err h10]
    exact ⟨⟨10, by simp [writesOf_append, whq, hw2, hw3, hw4, hw5, hw6, hw7, hw8,
      hw9, hw10, writesOf_nil, writesOf_cons_sleep, writesOf_cons_feed, ttnCommands]⟩, by simp⟩
  rw [show "mac save" ++ "\r\n" = "mac save\r\n" from by decide] at hw10
  simp only [andThen_ok h10, andThen_emit]
  unfold mac_join
  rcases execMultStep_cases ("mac join " ++ "otaa") true ["ok", "accepted"] st10 with
    ⟨e11, tr11, st11, h11, hw11, hh11⟩ | ⟨tr11, st11, h11, hw11, hh11⟩
  · rw [show ("mac join " ++ "otaa") ++ "\r\n" = "mac join otaa\r\n" from by
      decide] at hw11
    simp only [andThen_err h11]
    exact ⟨⟨11, by simp [writesOf_append, whq, hw2, hw3, hw4, hw5, hw6, hw7, hw8,
      hw9, hw10, hw11, writesOf_nil, writesOf_cons_sleep, writesOf_cons_feed, ttnCommands]⟩, by simp⟩
  rw [show ("mac join " ++ "otaa") ++ "\r\n" = "mac join otaa\r\n" from by
    decide] at hw11
  simp only [andThen_ok h11]
  have hfull : writesOf (hweuiQueryEvs ++ ([Event.sleepMs 100] ++ (tr2 ++ (tr3 ++
      (tr4 ++ (tr5 ++ (tr6 ++ (tr7 ++ (tr8 ++ (tr9 ++ (tr10 ++
      ([Event.sleepMs 3000, Event.feed] ++ (tr11 ++ [Event.feed]))))))))))))) =
      ttnCommands cfg (pyStrip s) := by
    simp [writesOf_append, whq, hw2, hw3, hw4, hw5, hw6, hw7, hw8, hw9, hw10,
      hw11, writesOf_nil, writesOf_cons_sleep, writesOf_cons_feed, ttnCommands]
  exact ⟨⟨11, by simp only [emit]; rw [hfull]; simp [ttnCommands]⟩,
    fun _ => by simp only [emit]; rw [hfull]⟩

/-- OTAA test credentials of the documented lengths (16 and 32). -/
def ttnConfig : Config :=
  ⟨"0123456789012345", "01234567890123456789012345678901"⟩

/-- Simulated module responses for a fully successful join-and-configure
run: the hardware EUI, nine "ok" acknowledgements, then the join answer
"ok" followed (after the network round trip) by "accepted" and silence. -/
def happyReads : List (Option String) :=
  [some "example_hw_eui", some "ok", some "ok", some "ok", some "ok",
   some "ok", some "ok", some "ok", some "ok", some "ok",
   some "ok", some "accepted"]

/-- The same responses with the join denied. -/
def deniedReads : List (Option String) :=
  [some "example_hw_eui", some "ok", some "ok", some "ok", some "ok",
   some "ok", some "ok", some "ok", some "ok", some "ok",
   some "ok", some "denied"]

/-- C3 counterexample. The claim counts "fifteen documented commands in
total"; a successful join-and-configure run writes exactly eleven command
lines (the fifteen steps of the sequence include two delays and two
watchdog feeds, which write nothing). -/
theorem c3_counterexample :
    (writesOf (init_ttn_otaa ttnConfig ⟨happyReads, none⟩).2.1).length = 11 ∧
    (11 : Nat) ≠ 15 := by decide

/-- C3 (amended): the join-and-configure sequence issues its commands in
the fixed order hardware-EUI query, reset band 868, set device EUI from
the cached hardware EUI, set app EUI, set app key, set power index 1, set
data rate 5, adaptive rate off, auto-reply off, save config, join "otaa" —
eleven commands in total (fifteen steps counting the two delays and two
watchdog feeds): every run's writes are an initial segment of that fixed
list and a successful run writes all of it; with the simulated join
response ["ok","accepted"] the sequence succeeds, with ["ok","denied"] it
raises InvalidResponse; a step's failure (here: an invalid app EUI) aborts
immediately, propagating the error with no later command written. -/
theorem c3_amended :
    (∀ (cfg : Config) (st : DriverState),
      (∃ k, writesOf (init_ttn_otaa cfg st).2.1 =
        (ttnCommands cfg (euiOf st)).take k) ∧
      ((init_ttn_otaa cfg st).1 = Except.ok () →
        writesOf (init_ttn_otaa cfg st).2.1 = ttnCommands cfg (euiOf st))) ∧
    ((init_ttn_otaa ttnConfig ⟨happyReads, none⟩).1 = Except.ok () ∧
      writesOf (init_ttn_otaa ttnConfig ⟨happyReads, none⟩).2.1 =
        ["sys get hweui\r\n",
         "mac reset 868\r\n",
         "mac set deveui example_hw_eui\r\n",
         "mac set appeui 0123456789012345\r\n",
         "mac set appkey 01234567890123456789012345678901\r\n",
         "mac set pwridx 1\r\n",
         "mac set dr 5\r\n",
         "mac set adr off\r\n",
         "mac set ar off\r\n",
         "mac save\r\n",
         "mac join otaa\r\n"]) ∧
    ((init_ttn_otaa ttnConfig ⟨deniedReads, none⟩).1 =
      Except.error (Err.invalidResponseList ["ok", "denied"]
        ["ok", "accepted"])) ∧
    ((init_ttn_otaa ⟨"short", "01234567890123456789012345678901"⟩
        ⟨[some "example_hw_eui", some "ok", some "ok"], none⟩).1 =
      Except.error (Err.invalidInput
        "The AppEUI needs to be exact 16 characters long!") ∧
      writesOf (init_ttn_otaa ⟨"short", "01234567890123456789012345678901"⟩
        ⟨[some "example_hw_eui", some "ok", some "ok"], none⟩).2.1 =
        ["sys get hweui\r\n", "mac reset 868\r\n",
         "mac set deveui example_hw_eui\r\n"]) := by
  refine ⟨fun cfg st => init_writes cfg st, by decide, by decide, by decide⟩

/-- C3 witness: instantiating the universal part on the successful
simulated run: the writes equal the full fixed command list. -/
theorem c3_amended_witness :
    writesOf (init_ttn_otaa ttnConfig ⟨happyReads, none⟩).2.1 =
      ttnCommands ttnConfig (euiOf ⟨happyReads, none⟩) :=
  (c3_amended.1 ttnConfig ⟨happyReads, none⟩).2 (by decide)

/-- C10: a hardware-EUI query that receives any (truthy) response line
overwrites the cached hw_eui with the decoded line, whatever its content —
the query is unvalidated — and returns it; and in a successful
join-and-configure run the third written command sets the device EUI to
exactly that cached decoded first response. -/
theorem c10_hweui_cache :
    ∀ (st : DriverState) (s : String) (rest : List (Option String)),
    st.reads = some s :: rest → s ≠ "" →
    sys_get_hweui st =
      (Except.ok (pyStrip s), hweuiQueryEvs, ⟨rest, some (pyStrip s)⟩) ∧
    (∀ cfg : Config, (init_ttn_otaa cfg st).1 = Except.ok () →
      (writesOf (init_ttn_otaa cfg st).2.1).getD 2 "" =
        "mac set deveui " ++ pyStrip s ++ "\r\n") := by
  intro st s rest hread hs
  obtain ⟨reads, hw⟩ := st
  simp only at hread
  subst hread
  refine ⟨sys_get_hweui_truthy s rest hw hs, ?_⟩
  intro cfg hok
  have h := (init_writes cfg ⟨some s :: rest, hw⟩).2 hok
  rw [h]
  rfl

/-- C10 witness: while the module is still booting, the query's response
"invalid_param" is itself cached; and in the successful simulated run the
third write is `mac set deveui example_hw_eui\r\n`. -/
theorem c10_hweui_cache_witness :
    sys_get_hweui ⟨[some "invalid_param"], none⟩ =
      (Except.ok "invalid_param", hweuiQueryEvs, ⟨[], some "invalid_param"⟩) ∧
    (writesOf (init_ttn_otaa ttnConfig ⟨happyReads, none⟩).2.1).getD 2 "" =
      "mac set deveui example_hw_eui\r\n" := by
  constructor
  · have h := (c10_hweui_cache ⟨[some "invalid_param"], none⟩ "invalid_param"
      [] rfl (by decide)).1
    simpa using h
  · have h := (c10_hweui_cache ⟨happyReads, none⟩ "example_hw_eui"
      (happyReads.tail) (by decide) (by decide)).2 ttnConfig (by decide)
    simpa using h

/-- Is this event a watchdog feed? -/
def isFeed : Event → Bool
  | Event.feed => true
  | _ => false

/-- Is this event a potential long-wait point (a sleep or a blocking
read)? -/
def isWait : Event → Bool
  | Event.sleepMs _ => true
  | Event.readLine => true
  | Event.readRaw => true
  | _ => false

/-- Did the operation raise? -/
def raisedOf {α : Type} (r : Except Err α) : Bool :=
  match r with
  | Except.error _ => true
  | Except.ok _ => false

/-- The property C8 claims of a trace: every potential long-wait point has
a watchdog feed somewhere before it and somewhere after it. -/
def fedAtWaits (tr : List Event) : Prop :=
  ∀ pre e suf, tr = pre ++ e :: suf → isWait e = true →
    pre.any isFeed = true ∧ suf.any isFeed = true

/-- The amended property: every wait point has a feed before it; every
wait point also has a feed after it, except that when the operation raises,
the final blocking read before the raise may end the trace with no feed
(and no further wait point) after it. -/
def fedAtWaitsAmended (tr : List Event) (failed : Bool) : Prop :=
  ∀ pre e suf, tr = pre ++ e :: suf → isWait e = true →
    pre.any isFeed = true ∧
    (suf.any isFeed = true ∨
      (e = Event.readLine ∧ failed = true ∧
        suf.all (fun x => !isWait x) = true))

/-- A trace satisfying the claimed property satisfies the amended one. -/
theorem amended_of_fedAtWaits {tr : List Event} (b : Bool)
    (h : fedAtWaits tr) : fedAtWaitsAmended tr b := by
  intro pre e suf heq hw
  obtain ⟨h1, h2⟩ := h pre e suf heq hw
  exact ⟨h1, Or.inl h2⟩

/-- All ways to split a four-element list around one element. -/
theorem decompFour {α : Type} (a1 a2 a3 a4 : α) (pre : List α) (e : α)
    (suf : List α) (h : [a1, a2, a3, a4] = pre ++ e :: suf) :
    (pre = [] ∧ e = a1 ∧ suf = [a2, a3, a4]) ∨
    (pre = [a1] ∧ e = a2 ∧ suf = [a3, a4]) ∨
    (pre = [a1, a2] ∧ e = a3 ∧ suf = [a4]) ∨
    (pre = [a1, a2, a3] ∧ e = a4 ∧ suf = []) := by
  rcases pre with _ | ⟨b1, pre⟩
  · injection h with h1 h2
    exact Or.inl ⟨rfl, h1.symm, h2.symm⟩
  injection h with h1 h2
  subst h1
  rcases pre with _ | ⟨b2, pre⟩
  · injection h2 with h3 h4
    exact Or.inr (Or.inl ⟨rfl, h3.symm, h4.symm⟩)
  injection h2 with h3 h4
  subst h3
  rcases pre with _ | ⟨b3, pre⟩
  · injection h4 with h5 h6
    exact Or.inr (Or.inr (Or.inl ⟨rfl, h5.symm, h6.symm⟩))
  injection h4 with h5 h6
  subst h5
  rcases pre with _ | ⟨b4, pre⟩
  · injection h6 with h7 h8
    exact Or.inr (Or.inr (Or.inr ⟨rfl, h7.symm, h8.symm⟩))
  injection h6 with h7 h8
  rcases pre with _ | ⟨b5, pre⟩ <;> simp at h8

/-- All ways to split a five-element list around one element. -/
theorem decompFive {α : Type} (a1 a2 a3 a4 a5 : α) (pre : List α) (e : α)
    (suf : List α) (h : [a1, a2, a3, a4, a5] = pre ++ e :: suf) :
    (pre = [] ∧ e = a1 ∧ suf = [a2, a3, a4, a5]) ∨
    (pre = [a1] ∧ e = a2 ∧ suf = [a3, a4, a5]) ∨
    (pre = [a1, a2] ∧ e = a3 ∧ suf = [a4, a5]) ∨
    (pre = [a1, a2, a3] ∧ e = a4 ∧ suf = [a5]) ∨
    (pre = [a1, a2, a3, a4] ∧ e = a5 ∧ suf = []) := by
  rcases pre with _ | ⟨b1, pre⟩
  · injection h with h1 h2
    exact Or.inl ⟨rfl, h1.symm, h2.symm⟩
  injection h with h1 h2
  subst h1
  rcases decompFour a2 a3 a4 a5 pre e suf h2 with
    ⟨hp, he, hs⟩ | ⟨hp, he, hs⟩ | ⟨hp, he, hs⟩ | ⟨hp, he, hs⟩ <;>
    subst hp <;>
    [exact Or.inr (Or.inl ⟨rfl, he, hs⟩);
     exact Or.inr (Or.inr (Or.inl ⟨rfl, he, hs⟩));
     exact Or.inr (Or.inr (Or.inr (Or.inl ⟨rfl, he, hs⟩)));
     exact Or.inr (Or.inr (Or.inr (Or.inr ⟨rfl, he, hs⟩)))]

/-- All ways to split a six-element list around one element. -/
theorem decompSix {α : Type} (a1 a2 a3 a4 a5 a6 : α) (pre : List α) (e : α)
    (suf : List α) (h : [a1, a2, a3, a4, a5, a6] = pre ++ e :: suf) :
    (pre = [] ∧ e = a1 ∧ suf = [a2, a3, a4, a5, a6]) ∨
    (pre = [a1] ∧ e = a2 ∧ suf = [a3, a4, a5, a6]) ∨
    (pre = [a1, a2] ∧ e = a3 ∧ suf = [a4, a5, a6]) ∨
    (pre = [a1, a2, a3] ∧ e = a4 ∧ suf = [a5, a6]) ∨
    (pre = [a1, a2, a3, a4] ∧ e = a5 ∧ suf = [a6]) ∨
    (pre = [a1, a2, a3, a4, a5] ∧ e = a6 ∧ suf = []) := by
  rcases pre with _ | ⟨b1, pre⟩
  · injection h with h1 h2
    exact Or.inl ⟨rfl, h1.symm, h2.symm⟩
  injection h with h1 h2
  subst h1
  rcases decompFive a2 a3 a4 a5 a6 pre e suf h2 with
    ⟨hp, he, hs⟩ | ⟨hp, he, hs⟩ | ⟨hp, he, hs⟩ | ⟨hp, he, hs⟩ | ⟨hp, he, hs⟩ <;>
    subst hp <;>
    [exact Or.inr (Or.inl ⟨rfl, he, hs⟩);
     exact Or.inr (Or.inr (Or.inl ⟨rfl, he, hs⟩));
     exact Or.inr (Or.inr (Or.inr (Or.inl ⟨rfl, he, hs⟩)));
     exact Or.inr (Or.inr (Or.inr (Or.inr (Or.inl ⟨rfl, he, hs⟩))));
     exact Or.inr (Or.inr (Or.inr (Or.inr (Or.inr ⟨rfl, he, hs⟩))))]

/-- The raising trace of execute (and of the first phase of
execute_multiple): feed, write, sleep, feed, read, then the raise. The
final read is followed by no feed, so only the amended property (with
failed = true) holds. -/
theorem fedA_raise_trace (w : String) (n : Nat) :
    fedAtWaitsAmended [Event.feed, Event.write w, Event.sleepMs n, Event.feed,
      Event.readLine] true := by
  intro pre e suf heq hw
  rcases decompFive _ _ _ _ _ pre e suf heq with
    ⟨hp, he, hs⟩ | ⟨hp, he, hs⟩ | ⟨hp, he, hs⟩ | ⟨hp, he, hs⟩ | ⟨hp, he, hs⟩ <;>
    subst hp <;> subst he <;> subst hs <;> simp_all [isWait, isFeed, isPySpace]

/-- The successful trace of execute: the final feed follows the read. -/
theorem fedA_ok_trace (w : String) (n : Nat) (b : Bool) :
    fedAtWaitsAmended [Event.feed, Event.write w, Event.sleepMs n, Event.feed,
      Event.readLine, Event.feed] b := by
  intro pre e suf heq hw
  rcases decompSix _ _ _ _ _ _ pre e suf heq with
    ⟨hp, he, hs⟩ | ⟨hp, he, hs⟩ | ⟨hp, he, hs⟩ | ⟨hp, he, hs⟩ | ⟨hp, he, hs⟩ |
      ⟨hp, he, hs⟩ <;>
    subst hp <;> subst he <;> subst hs <;> simp_all [isWait, isFeed]

/-- One read-loop iteration block is fully bracketed by feeds. -/
theorem fedAtWaits_block :
    fedAtWaits [Event.feed, Event.sleepMs 5000, Event.readLine, Event.feed] := by
  intro pre e suf heq hw
  rcases decompFour _ _ _ _ pre e suf heq with
    ⟨hp, he, hs⟩ | ⟨hp, he, hs⟩ | ⟨hp, he, hs⟩ | ⟨hp, he, hs⟩ <;>
    subst hp <;> subst he <;> subst hs <;> simp_all [isWait, isFeed]

/-- Concatenation preserves full feed bracketing. -/
theorem fedAtWaits_append {t1 t2 : List Event} (h1 : fedAtWaits t1)
    (h2 : fedAtWaits t2) : fedAtWaits (t1 ++ t2) := by
  intro pre e suf heq hw
  rcases List.append_eq_append_iff.mp heq with ⟨a2, hpre, ht2⟩ | ⟨c2, ht1, hd⟩
  · obtain ⟨hfa, hfs⟩ := h2 a2 e suf ht2 hw
    subst hpre
    exact ⟨by simp [List.any_append, hfa], hfs⟩
  · rcases c2 with _ | ⟨e2, c2⟩
    · obtain ⟨hfa, hfs⟩ := h2 [] e suf hd.symm hw
      simp at hfa
    · injection hd with he hsuf
      subst he
      obtain ⟨hfa, hfc⟩ := h1 pre e c2 ht1 hw
      subst hsuf
      exact ⟨hfa, by simp [List.any_append, hfc]⟩

/-- The whole read-loop trace is fully bracketed by feeds. -/
theorem multiLoop_fedAtWaits (rest : List (Option String)) :
    fedAtWaits (multiLoop rest).2.1 := by
  induction rest with
  | nil => exact fedAtWaits_block
  | cons r rest ih =>
    rcases r with _ | s
    · exact fedAtWaits_block
    · exact fedAtWaits_append fedAtWaits_block ih

/-- The read-loop trace always contains a feed. -/
theorem multiLoop_any_feed (rest : List (Option String)) :
    (multiLoop rest).2.1.any isFeed = true := by
  rcases rest with _ | ⟨r, rest⟩
  · rfl
  · rcases r with _ | s <;> simp [multiLoop, isFeed]

/-- Appending a feed-containing fully bracketed tail after the initial
write/sleep/read phase yields a fully bracketed trace. -/
theorem fedAtWaits_phase_append (w : String) (n : Nat) {t2 : List Event}
    (h2 : fedAtWaits t2) (hne : t2.any isFeed = true) :
    fedAtWaits ([Event.feed, Event.write w, Event.sleepMs n, Event.feed,
      Event.readLine] ++ t2) := by
  intro pre e suf heq hw
  rcases List.append_eq_append_iff.mp heq with ⟨a2, hpre, ht2⟩ | ⟨c2, ht1, hd⟩
  · obtain ⟨hfa, hfs⟩ := h2 a2 e suf ht2 hw
    subst hpre
    exact ⟨by simp [List.any_append, hfa], hfs⟩
  · rcases c2 with _ | ⟨e2, c2⟩
    · obtain ⟨hfa, hfs⟩ := h2 [] e suf hd.symm hw
      simp at hfa
    · injection hd with he hsuf
      subst he
      subst hsuf
      rcases decompFive _ _ _ _ _ pre e c2 ht1 with
        ⟨hp, hee, hs⟩ | ⟨hp, hee, hs⟩ | ⟨hp, hee, hs⟩ | ⟨hp, hee, hs⟩ |
          ⟨hp, hee, hs⟩ <;>
        subst hp <;> subst hee <;> subst hs <;>
        simp_all [isWait, isFeed, List.any_append]

/-- C8 counterexample. The claim says that during every execution of
execute, including those that end by raising, the watchdog is fed before
and after each sleep and each blocking read. In the execution of execute
that reads no data and raises NoResponse, the trace is feed, write, sleep,
feed, read — the final blocking read is followed by no feed at all, so the
claimed property fails on that execution. -/
theorem c8_counterexample :
    ¬ fedAtWaits (execute "sys get ver" true "ok" ⟨[], none⟩).2.1 := by
  intro h
  have h2 := h [Event.feed, Event.write "sys get ver\r\n", Event.sleepMs 100,
    Event.feed] Event.readLine [] rfl rfl
  exact absurd h2.2 (by decide)

/-- C8 (amended): in every execution of execute and execute_multiple every
sleep and blocking read has a watchdog feed before it, and also one after
it except that an execution that raises (NoResponse, or InvalidResponse in
execute) ends with its final blocking read unfollowed by any feed or
further wait point. -/
theorem c8_amended :
    ∀ (command : String) (validate : Bool) (valid : String)
      (validList : List String) (st : DriverState),
    fedAtWaitsAmended (execute command validate valid st).2.1
      (raisedOf (execute command validate valid st).1) ∧
    fedAtWaitsAmended (execute_multiple command validate validList st).2.1
      (raisedOf (execute_multiple command validate validList st).1) := by
  intro command validate valid validList st
  obtain ⟨reads, hw⟩ := st
  constructor
  · rcases reads with _ | ⟨r, rest⟩
    · exact fedA_raise_trace (command ++ "\r\n") 100
    · rcases r with _ | s
      · exact fedA_raise_trace (command ++ "\r\n") 100
      · by_cases hs : s = ""
        · subst hs
          exact fedA_raise_trace (command ++ "\r\n") 100
        · rw [execute_truthy _ _ _ _ _ _ hs]
          by_cases hv : validate = true ∧ pyStrip s ≠ valid
          · simp only [if_pos hv]
            exact fedA_raise_trace (command ++ "\r\n") 100
          · simp only [if_neg hv]
            exact fedA_ok_trace (command ++ "\r\n") 100 false
  · rcases reads with _ | ⟨r, rest⟩
    · exact fedA_raise_trace (command ++ "\r\n") 5000
    · rcases r with _ | s
      · exact fedA_raise_trace (command ++ "\r\n") 5000
      · by_cases hs : s = ""
        · subst hs
          exact fedA_raise_trace (command ++ "\r\n") 5000
        · rw [execute_multiple_truthy _ _ _ _ _ _ hs]
          exact amended_of_fedAtWaits _
            (fedAtWaits_phase_append (command ++ "\r\n") 5000
              (multiLoop_fedAtWaits rest) (multiLoop_any_feed rest))

/-- C8 witness: the amended property on the successful single-read
execution (no raise) and on the NoResponse execution of execute_multiple. -/
theorem c8_amended_witness :
    fedAtWaitsAmended (execute "mac save" true "ok" ⟨[some "ok"], none⟩).2.1
      false ∧
    fedAtWaitsAmended (execute_multiple "mac join otaa" true ["ok", "accepted"]
      ⟨[], none⟩).2.1 true := by
  constructor
  · exact (c8_amended "mac save" true "ok" ["ok", "accepted"]
      ⟨[some "ok"], none⟩).1
  · exact (c8_amended "mac join otaa" true "ok" ["ok", "accepted"]
      ⟨[], none⟩).2
